import Mathlib

/-!
Verification of the flow recorder/replayer extension.

We give a shallow embedding of the element-resolution, playback, capture,
storage and import/export logic of the extension, and prove or refute the
specified properties.  The DOM is modelled as a tree of elements; each
element carries a tag name, its attribute list, its (already computed)
text content, its light children and an optional shadow subtree.  CSS and
XPath engines are modelled on exactly the selector fragments the code
emits or consumes; a query on a syntactically invalid selector string is
modelled as a thrown exception (`Except.error`), matching the browser.
The element/child-list/shadow types are a mutual inductive rather than a
nested `List` so that every traversal is structurally recursive and
computes definitionally.
-/

namespace FlowRec

mutual
/-- A DOM element: tag name (lower case), attribute list, text content
(as returned by `textContent`, untrimmed), light-DOM children, and an
optional shadow root. -/
inductive Elem where
  | mk (tag : String) (attrs : List (String × String)) (text : String)
       (children : ElemList) (shadow : ShadowDom)

/-- A sequence of sibling elements (the children of an element, or the
top-level elements of a document or shadow root). -/
inductive ElemList where
  | nil
  | cons (e : Elem) (es : ElemList)

/-- Model of `element.shadowRoot`: absent, or a root holding its children. -/
inductive ShadowDom where
  | none
  | mk (roots : ElemList)
end

def Elem.tag : Elem → String
  | .mk t _ _ _ _ => t

def Elem.attrs : Elem → List (String × String)
  | .mk _ a _ _ _ => a

def Elem.text : Elem → String
  | .mk _ _ x _ _ => x

def Elem.children : Elem → ElemList
  | .mk _ _ _ c _ => c

def Elem.shadow : Elem → ShadowDom
  | .mk _ _ _ _ s => s

/-- Model of `element.getAttribute(name)`: first binding of the attribute, `none`
when absent (JS `null`). -/
def Elem.getAttr (e : Elem) (name : String) : Option String :=
  (e.attrs.find? (fun p => p.1 == name)).map Prod.snd

/-- JS string truthiness applied to an optional string (attribute value
or optional field): `null`/`undefined` and the empty string are falsy. -/
def truthyStr : Option String → Option String
  | Option.none => Option.none
  | some s => if s = "" then Option.none else some s

/-! JS string primitives, implemented structurally over the character
list so that concrete evaluations reduce definitionally (the library
versions use byte positions and do not reduce in the kernel). -/

def ofChars (l : List Char) : String := ⟨l⟩

/-- Model of `l` begins with `p`. -/
def leadsWith : List Char → List Char → Bool
  | [], _ => true
  | _ :: _, [] => false
  | c :: p, d :: l => c == d && leadsWith p l

/-- JS `s.startsWith(p)`. -/
def strStartsWith (s p : String) : Bool := leadsWith p.data s.data

/-- JS `s.endsWith(p)`. -/
def strEndsWith (s p : String) : Bool := leadsWith p.data.reverse s.data.reverse

/-- Drop the first `n` characters. -/
def strDrop (s : String) (n : Nat) : String := ofChars (s.data.drop n)

/-- Drop the last `n` characters. -/
def strDropRight (s : String) (n : Nat) : String :=
  ofChars (s.data.take (s.data.length - n))

/-- Does `s` contain the character `c`? -/
def strHasChar (s : String) (c : Char) : Bool := s.data.contains c

/-- JS `s.trim()`: strip leading and trailing whitespace. -/
def strTrim (s : String) : String :=
  ofChars (((s.data.dropWhile Char.isWhitespace).reverse.dropWhile Char.isWhitespace).reverse)

/-- Worker for `strSplitOn`: scan left to right; `skip` counts separator
characters still to be consumed after a match. -/
def splitOnGo (sep : List Char) : List Char → Nat → List Char → List (List Char)
  | [], _, acc => [acc.reverse]
  | _ :: rest, skip + 1, acc => splitOnGo sep rest skip acc
  | c :: rest, 0, acc =>
    if leadsWith sep (c :: rest) then
      acc.reverse :: splitOnGo sep rest (sep.length - 1) []
    else
      splitOnGo sep rest 0 (c :: acc)

/-- Model of `s.split(sep)` on a nonempty separator (the uses in the source all
pass nonempty literals); the empty separator returns the whole string. -/
def strSplitOn (s sep : String) : List String :=
  if sep == "" then [s] else (splitOnGo sep.data s.data 0 []).map ofChars

/-- Model of `parseInt`-style digits-only numeral parse (used for the `[k]`
index of an XPath segment). -/
def strToNat? (s : String) : Option Nat :=
  if !(s.data.isEmpty) && s.data.all Char.isDigit then
    some (s.data.foldl (fun n c => 10 * n + (c.toNat - 48)) 0)
  else Option.none

/-- A character allowed in the simple identifier fragment of the CSS /
XPath grammars the extension emits (tag names, attribute names, ids). -/
def identChar (c : Char) : Bool :=
  c.isAlphanum || c == '-' || c == '_'

/-- A valid simple name: nonempty, made of identifier characters, first
character a letter. -/
def validName (s : String) : Bool :=
  !(s == "") && s.data.all identChar && (s.data.headD 'a').isAlpha

/-- The simple-selector fragment of CSS used by the extension: an id
selector `#v`, an attribute-equality selector `[n="v"]`, or a type
selector `t`. -/
inductive SSel where
  | idSel (v : String)
  | attrEq (n v : String)
  | tagSel (t : String)
deriving Repr, DecidableEq

/-- Parse a CSS selector string into the modelled fragment.  `none`
models a selector the browser rejects with a syntax error. -/
def parseSSel (s : String) : Option SSel :=
  if strStartsWith s "#" then
    let v := strDrop s 1
    if validName v then some (.idSel v) else Option.none
  else if strStartsWith s "[" && strEndsWith s "\"]" then
    let body := strDropRight (strDrop s 1) 2
    match strSplitOn body "=\"" with
    | [n, v] => if validName n && !(strHasChar v '"') then some (.attrEq n v) else Option.none
    | _ => Option.none
  else if validName s then some (.tagSel s) else Option.none

/-- Does an element match a simple selector? -/
def matchesSSel (q : SSel) (e : Elem) : Bool :=
  match q with
  | .idSel v => e.getAttr "id" == some v
  | .attrEq n v => e.getAttr n == some v
  | .tagSel t => e.tag == t

mutual
/-- Model of `root.querySelector(q)` restricted to the light DOM: first matching
element in document (pre-) order, not descending into shadow roots. -/
def qselL (q : SSel) : ElemList → Option Elem
  | .nil => Option.none
  | .cons e rest =>
    match qselE q e with
    | some r => some r
    | Option.none => qselL q rest

def qselE (q : SSel) : Elem → Option Elem
  | .mk t a x c s =>
    if matchesSSel q (.mk t a x c s) then some (.mk t a x c s) else qselL q c
end

mutual
/-- Model of `root.querySelectorAll(q)` restricted to the light DOM, in document
order. -/
def qsAllL (q : SSel) : ElemList → List Elem
  | .nil => []
  | .cons e rest => qsAllE q e ++ qsAllL q rest

def qsAllE (q : SSel) : Elem → List Elem
  | .mk t a x c s =>
    (if matchesSSel q (.mk t a x c s) then [Elem.mk t a x c s] else []) ++ qsAllL q c
end

/-- Model of `querySelector` with the parse step: a syntactically invalid selector
throws. -/
def querySelectorExc (roots : ElemList) (css : String) : Except Unit (Option Elem) :=
  match parseSSel css with
  | Option.none => .error ()
  | some q => .ok (qselL q roots)

/-- Model of `querySelector` inside a `try { } catch` that maps the syntax error
to "not found". -/
def querySelectorCaught (roots : ElemList) (q : Option SSel) : Option Elem :=
  match q with
  | Option.none => Option.none
  | some q => qselL q roots

mutual
/-- The shadow phase of `querySelectorDeep`: walk all elements of the
root in document order and, for each one carrying a shadow root, search
that shadow tree deeply (current-root query first, then its own shadow
phase). -/
def shadowScanL (q : Option SSel) : ElemList → Option Elem
  | .nil => Option.none
  | .cons e rest =>
    match shadowScanE q e with
    | some r => some r
    | Option.none => shadowScanL q rest

def shadowScanE (q : Option SSel) : Elem → Option Elem
  | .mk _ _ _ c sd =>
    match shadowScanS q sd with
    | some r => some r
    | Option.none => shadowScanL q c

def shadowScanS (q : Option SSel) : ShadowDom → Option Elem
  | .none => Option.none
  | .mk sh =>
    match querySelectorCaught sh q with
    | some r => some r
    | Option.none => shadowScanL q sh
end

/-- Model of `querySelectorDeep` / `deepQuerySelector` of the source: try the
current root (catching an invalid selector), then recurse into every
shadow root reachable from it, in document order. -/
def querySelectorDeep (roots : ElemList) (css : String) : Option Elem :=
  let q := parseSSel css
  match querySelectorCaught roots q with
  | some r => some r
  | Option.none => shadowScanL q roots

/-- Model of `querySelectorAll` results of the current root (catching an invalid
selector). -/
def qsAllCaught (roots : ElemList) (q : Option SSel) : List Elem :=
  match q with
  | Option.none => []
  | some q => qsAllL q roots

mutual
def shadowScanAllL (q : Option SSel) : ElemList → List Elem
  | .nil => []
  | .cons e rest => shadowScanAllE q e ++ shadowScanAllL q rest

def shadowScanAllE (q : Option SSel) : Elem → List Elem
  | .mk _ _ _ c sd => shadowScanAllS q sd ++ shadowScanAllL q c

def shadowScanAllS (q : Option SSel) : ShadowDom → List Elem
  | .none => []
  | .mk sh => qsAllCaught sh q ++ shadowScanAllL q sh
end

/-- Model of `querySelectorAllDeep` of the source: all matches in the current
root, then all matches inside every reachable shadow root, in document
order. -/
def querySelectorAllDeep (roots : ElemList) (css : String) : List Elem :=
  let q := parseSSel css
  qsAllCaught roots q ++ shadowScanAllL q roots

/-- Model of `document.getElementById`: light-DOM lookup by the `id` attribute;
never throws; the empty id never matches. -/
def getElementById (roots : ElemList) (v : String) : Option Elem :=
  if v = "" then Option.none else qselL (.idSel v) roots

end FlowRec

namespace FlowRec

/-! ### XPath engine (on the fragment the extension generates) -/

/-- The XPath fragment used by the extension: an id lookup
`//*[@id="v"]`, or an absolute path of `tag` / `tag[k]` segments. -/
inductive XPathQ where
  | byId (v : String)
  | path (segs : List (String × Nat))
deriving Repr, DecidableEq

/-- Parse one path segment, `tag` or `tag[k]`. -/
def parseXSeg (seg : String) : Option (String × Nat) :=
  if strEndsWith seg "]" then
    match strSplitOn seg "[" with
    | [t, r] =>
      match strToNat? (strDropRight r 1) with
      | some k => if validName t && decide (0 < k) then some (t, k) else Option.none
      | Option.none => Option.none
    | _ => Option.none
  else if validName seg then some (seg, 1) else Option.none

/-- Parse an XPath string; `none` models an expression
`document.evaluate` rejects with an exception. -/
def parseXPath (s : String) : Option XPathQ :=
  if strStartsWith s "//*[@id=\"" && strEndsWith s "\"]" then
    let v := strDropRight (strDrop s 9) 2
    if strHasChar v '"' then Option.none else some (.byId v)
  else if strStartsWith s "/" && !(strStartsWith s "//") then
    match (strSplitOn (strDrop s 1) "/").mapM parseXSeg with
    | some segs => some (.path segs)
    | Option.none => Option.none
  else Option.none

/-- The `k`-th (1-based) element with the given tag among a sibling
list. -/
def nthTag : ElemList → String → Nat → Option Elem
  | .nil, _, _ => Option.none
  | .cons e rest, t, k =>
    if e.tag == t then
      if k == 1 then some e else nthTag rest t (k - 1)
    else nthTag rest t k

/-- Walk an absolute path from a sibling list. -/
def xpathWalk : ElemList → List (String × Nat) → Option Elem
  | _, [] => Option.none
  | cur, [(t, k)] => nthTag cur t k
  | cur, (t, k) :: seg :: rest =>
    match nthTag cur t k with
    | some e => xpathWalk e.children (seg :: rest)
    | Option.none => Option.none

/-- Model of `document.evaluate(xpath, document, null, FIRST_ORDERED_NODE_TYPE,
null).singleNodeValue`; XPath never reaches shadow trees.  An
unparseable expression throws. -/
def xpathEval (roots : ElemList) (s : String) : Except Unit (Option Elem) :=
  match parseXPath s with
  | Option.none => .error ()
  | some (.byId v) => .ok (qselL (.idSel v) roots)
  | some (.path segs) => .ok (xpathWalk roots segs)

/-! ### findByTextDeep (utils/selectors.ts) -/

mutual
/-- Shadow-recursion phase of `findByTextDeep`; `textScanS` inlines the
recursive `findByTextDeep` call on a shadow root.  The
`querySelectorAll(tagName)` at the head of each call is NOT inside a
`try` in the source, so a syntactically invalid tag selector throws. -/
def textScanL : ElemList → String → String → Except Unit (Option Elem)
  | .nil, _, _ => .ok Option.none
  | .cons e rest, tg, tx =>
    match textScanE e tg tx with
    | .error u => .error u
    | .ok (some r) => .ok (some r)
    | .ok Option.none => textScanL rest tg tx

def textScanE : Elem → String → String → Except Unit (Option Elem)
  | .mk _ _ _ c sd, tg, tx =>
    match textScanS sd tg tx with
    | .error u => .error u
    | .ok (some r) => .ok (some r)
    | .ok Option.none => textScanL c tg tx

def textScanS : ShadowDom → String → String → Except Unit (Option Elem)
  | .none, _, _ => .ok Option.none
  | .mk sh, tg, tx =>
    match parseSSel tg with
    | Option.none => .error ()
    | some q =>
      match (qsAllL q sh).find? (fun e => strTrim e.text == tx) with
      | some r => .ok (some r)
      | Option.none => textScanL sh tg tx
end

/-- Model of `findByTextDeep(root, tagName, text)`: exact (trimmed) text match on
`querySelectorAll(tagName)` in the current root, then recursion into
every reachable shadow root.  The initial `querySelectorAll(tagName)` is
not guarded by a `try`, so an invalid `tagName` selector throws. -/
def findByTextDeep (roots : ElemList) (tg tx : String) : Except Unit (Option Elem) :=
  match parseSSel tg with
  | Option.none => .error ()
  | some q =>
    match (qsAllL q roots).find? (fun e => strTrim e.text == tx) with
    | some r => .ok (some r)
    | Option.none => textScanL roots tg tx

/-! ### findByShadowPath (content/player.ts) -/

/-- Descend through the parsed host chain; each hop queries the current
root (an invalid host selector throws — there is no `try` in
`findByShadowPath`), returns `null` when the host or its shadow root is
missing, and the final root is queried with the stored css (again
without a catch). -/
def shadowDescend (cur : ElemList) (hosts : List String) (targetSelector : String) :
    Except Unit (Option Elem) :=
  match hosts with
  | [] => querySelectorExc cur targetSelector
  | h :: rest =>
    match parseSSel h with
    | Option.none => .error ()
    | some q =>
      match qselL q cur with
      | Option.none => .ok Option.none
      | some e =>
        match e.shadow with
        | .none => .ok Option.none
        | .mk sh => shadowDescend sh rest targetSelector

/-- Model of `findByShadowPath(hostPath, targetSelector)`: split the stored path
on `" >>> "`, descend host by host, then query the final shadow root. -/
def findByShadowPath (roots : ElemList) (hostPath targetSelector : String) :
    Except Unit (Option Elem) :=
  shadowDescend roots ((strSplitOn hostPath " >>> ").map strTrim) targetSelector

/-! ### ElementSelector and the two findElement implementations -/

/-- The `ElementSelector` record of `types/index.ts`. -/
structure ElementSelector where
  css : String
  xpath : String
  text : Option String
  tagName : String
  attributes : List (String × String)
deriving Repr, DecidableEq

/-- Model of `selector.attributes[n]` (`undefined` when absent). -/
def ElementSelector.attr (sel : ElementSelector) (n : String) : Option String :=
  (sel.attributes.find? (fun p => p.1 == n)).map Prod.snd

/-- Model of `CSS.escape`.  The model treats attribute values as exact strings,
so escaping followed by the structural parse is the identity; values
containing a double quote are handled by `parseSSel` rejecting the
resulting selector, as the browser rejects the unescaped form. -/
def cssEscape (s : String) : String := s

/-- JS `x.includes(y)`: `y` occurs as a substring of `x` (always true
for the empty `y`). -/
def strContains (s sub : String) : Bool :=
  if sub == "" then true else decide (1 < (strSplitOn s sub).length)

/-- Model of `r` of a caught evaluation: exceptions map to "not found". -/
def catchOpt (r : Except Unit (Option Elem)) : Option Elem :=
  match r with
  | .error _ => Option.none
  | .ok v => v

/-! Player (content/player.ts) strategies, in source order. -/

/-- Player strategy 1: shadow host path (skipped when the attribute is
absent or empty). -/
def pStratShadow (doc : ElemList) (sel : ElementSelector) : Except Unit (Option Elem) :=
  match truthyStr (sel.attr "data-shadow-host-path") with
  | some sp => findByShadowPath doc sp sel.css
  | Option.none => .ok Option.none

/-- Player strategy 2: deep CSS. -/
def pStratCss (doc : ElemList) (sel : ElementSelector) : Option Elem :=
  querySelectorDeep doc sel.css

/-- Player strategy 3: XPath inside `try`/`catch`. -/
def pStratXPath (doc : ElemList) (sel : ElementSelector) : Option Elem :=
  catchOpt (xpathEval doc sel.xpath)

/-- Player strategy 4: `getElementById` then a deep `#id` query. -/
def pStratId (doc : ElemList) (sel : ElementSelector) : Option Elem :=
  match truthyStr (sel.attr "id") with
  | some v =>
    match getElementById doc v with
    | some e => some e
    | Option.none => querySelectorDeep doc ("#" ++ v)
  | Option.none => Option.none

/-- Player strategies 5-8: a deep `[name="v"]`-style attribute query
(the player builds these without `CSS.escape`). -/
def pStratAttr (name : String) (doc : ElemList) (sel : ElementSelector) : Option Elem :=
  match truthyStr (sel.attr name) with
  | some v => querySelectorDeep doc ("[" ++ name ++ "=\"" ++ v ++ "\"]")
  | Option.none => Option.none

/-- Player strategy 9: exact trimmed text over
`document.querySelectorAll(tagName)` (light DOM only, no `try`). -/
def pStratText (doc : ElemList) (sel : ElementSelector) : Except Unit (Option Elem) :=
  match truthyStr sel.text with
  | some t =>
    match parseSSel sel.tagName with
    | Option.none => .error ()
    | some q => .ok ((qsAllL q doc).find? (fun e => strTrim e.text == t))
  | Option.none => .ok Option.none

/-- Model of `findElement` of content/player.ts: the nine strategies tried in
source order with early return on the first hit. -/
def playerFindElement (doc : ElemList) (sel : ElementSelector) : Except Unit (Option Elem) :=
  match pStratShadow doc sel with
  | .error u => .error u
  | .ok (some e) => .ok (some e)
  | .ok Option.none =>
  match pStratCss doc sel with
  | some e => .ok (some e)
  | Option.none =>
  match pStratXPath doc sel with
  | some e => .ok (some e)
  | Option.none =>
  match pStratId doc sel with
  | some e => .ok (some e)
  | Option.none =>
  match pStratAttr "name" doc sel with
  | some e => .ok (some e)
  | Option.none =>
  match pStratAttr "placeholder" doc sel with
  | some e => .ok (some e)
  | Option.none =>
  match pStratAttr "aria-label" doc sel with
  | some e => .ok (some e)
  | Option.none =>
  match pStratAttr "data-testid" doc sel with
  | some e => .ok (some e)
  | Option.none => pStratText doc sel

/-! Utils (utils/selectors.ts) strategies, in source order. -/

/-- Utils strategy 3: exact text via `findByTextDeep` — NOT inside a
`try`, so its exception propagates out of `findElement`. -/
def sStratText (doc : ElemList) (sel : ElementSelector) : Except Unit (Option Elem) :=
  match truthyStr sel.text with
  | some t => findByTextDeep doc sel.tagName t
  | Option.none => .ok Option.none

/-- Utils strategy 4: `getElementById` only. -/
def sStratId (doc : ElemList) (sel : ElementSelector) : Option Elem :=
  match truthyStr (sel.attr "id") with
  | some v => getElementById doc v
  | Option.none => Option.none

/-- Utils strategies 5-8: deep attribute query built with
`CSS.escape`. -/
def sStratAttr (name : String) (doc : ElemList) (sel : ElementSelector) : Option Elem :=
  match truthyStr (sel.attr name) with
  | some v => querySelectorDeep doc ("[" ++ name ++ "=\"" ++ cssEscape v ++ "\"]")
  | Option.none => Option.none

/-- Utils strategy 9: role + exact trimmed text over a deep
`[role="v"]` query (the role value is interpolated without escaping). -/
def sStratRoleText (doc : ElemList) (sel : ElementSelector) : Option Elem :=
  match truthyStr (sel.attr "role"), truthyStr sel.text with
  | some r, some t =>
    (querySelectorAllDeep doc ("[role=\"" ++ r ++ "\"]")).find? (fun e => strTrim e.text == t)
  | _, _ => Option.none

/-- Utils strategy 10 (last resort): approximate text match — either the
element's trimmed text contains the stored text or vice versa — over a
deep query for the stored tag. -/
def sStratApprox (doc : ElemList) (sel : ElementSelector) : Option Elem :=
  match truthyStr sel.text with
  | some t =>
    (querySelectorAllDeep doc sel.tagName).find?
      (fun e => strContains (strTrim e.text) t || strContains t (strTrim e.text))
  | Option.none => Option.none

/-- Model of `findElement` of utils/selectors.ts: its ten strategies in source
order with early return on the first hit. -/
def selectorsFindElement (doc : ElemList) (sel : ElementSelector) : Except Unit (Option Elem) :=
  match pStratCss doc sel with
  | some e => .ok (some e)
  | Option.none =>
  match pStratXPath doc sel with
  | some e => .ok (some e)
  | Option.none =>
  match sStratText doc sel with
  | .error u => .error u
  | .ok (some e) => .ok (some e)
  | .ok Option.none =>
  match sStratId doc sel with
  | some e => .ok (some e)
  | Option.none =>
  match sStratAttr "name" doc sel with
  | some e => .ok (some e)
  | Option.none =>
  match sStratAttr "aria-label" doc sel with
  | some e => .ok (some e)
  | Option.none =>
  match sStratAttr "placeholder" doc sel with
  | some e => .ok (some e)
  | Option.none =>
  match sStratAttr "data-testid" doc sel with
  | some e => .ok (some e)
  | Option.none =>
  match sStratRoleText doc sel with
  | some e => .ok (some e)
  | Option.none => .ok (sStratApprox doc sel)

/-- First-success chaining of strategy outcomes: an exception aborts the
whole resolution, a hit returns immediately, a miss falls through; the
chain yields `null` only when every strategy misses. -/
def chainE : List (Except Unit (Option Elem)) → Except Unit (Option Elem)
  | [] => .ok Option.none
  | r :: rs =>
    match r with
    | .error u => .error u
    | .ok (some e) => .ok (some e)
    | .ok Option.none => chainE rs

/-- The player resolver's strategies as an ordered list. -/
def playerStrategyList (doc : ElemList) (sel : ElementSelector) :
    List (Except Unit (Option Elem)) :=
  [ pStratShadow doc sel,
    .ok (pStratCss doc sel),
    .ok (pStratXPath doc sel),
    .ok (pStratId doc sel),
    .ok (pStratAttr "name" doc sel),
    .ok (pStratAttr "placeholder" doc sel),
    .ok (pStratAttr "aria-label" doc sel),
    .ok (pStratAttr "data-testid" doc sel),
    pStratText doc sel ]

/-- The utils resolver's strategies as an ordered list. -/
def selectorsStrategyList (doc : ElemList) (sel : ElementSelector) :
    List (Except Unit (Option Elem)) :=
  [ .ok (pStratCss doc sel),
    .ok (pStratXPath doc sel),
    sStratText doc sel,
    .ok (sStratId doc sel),
    .ok (sStratAttr "name" doc sel),
    .ok (sStratAttr "aria-label" doc sel),
    .ok (sStratAttr "placeholder" doc sel),
    .ok (sStratAttr "data-testid" doc sel),
    .ok (sStratRoleText doc sel),
    .ok (sStratApprox doc sel) ]

end FlowRec

namespace FlowRec

/-! ### Data model (types/index.ts); numbers are JS numbers, modelled as ℚ -/

inductive StepType where
  | click
  | input
  | scroll
  | navigation
  | keypress
  | select
  | wait
deriving Repr, DecidableEq

/-- The `RecordedStep` record. -/
structure RecordedStep where
  id : String
  type : StepType
  timestamp : ℚ
  target : ElementSelector
  value : Option String
  position : Option (ℚ × ℚ)
  scrollPosition : Option (ℚ × ℚ)
  url : Option String
  delay : ℚ
  description : Option String
deriving Repr, DecidableEq

/-- The `Flow` record. -/
structure Flow where
  id : String
  name : String
  description : Option String
  steps : List RecordedStep
  createdAt : ℚ
  updatedAt : ℚ
  startUrl : String
deriving Repr, DecidableEq

structure PlaybackOptions where
  speed : ℚ
  stepByStep : Bool
  stopOnError : Bool
  highlightElements : Bool
deriving Repr, DecidableEq

structure PlaybackState where
  isPlaying : Bool
  isPaused : Bool
  currentFlowId : Option String
  currentStepIndex : Nat
  options : PlaybackOptions
deriving Repr, DecidableEq

/-! ### Playback controller (background/service-worker.ts) -/

/-- Model of `stopPlayback()`: force Idle, keeping the options. -/
def stopPlayback (st : PlaybackState) : PlaybackState :=
  { st with isPlaying := false, isPaused := false,
            currentFlowId := Option.none, currentStepIndex := 0 }

/-- Outcome of sending `EXECUTE_STEP` for one step: the content script
answered with `success` not `=== false`; answered `success: false`
(resolution or simulation failed); or `sendMessageWithRetry` exhausted
its retries and threw. -/
inductive StepOutcome where
  | success
  | failed
  | threw
deriving Repr, DecidableEq

/-- Model of `flow.steps[i]?.delay || 500`: JS `||` also replaces a recorded
delay of `0` by the 500 default. -/
def delayAt (flow : Flow) (i : Nat) : ℚ :=
  match flow.steps[i]? with
  | some s => if s.delay = 0 then 500 else s.delay
  | Option.none => 500

/-- The pacing delay scheduled after an ordinary step:
`Math.max(delay / speed, 300)` where `delay` is the NEXT step's recorded
delay (or 500). -/
def schedDelay (flow : Flow) (i : Nat) (speed : ℚ) : ℚ :=
  max (delayAt flow i / speed) 300

/-- The pacing delay scheduled after a navigation step:
`Math.max(delay / speed, 1000)`. -/
def schedDelayNav (flow : Flow) (i : Nat) (speed : ℚ) : ℚ :=
  max (delayAt flow i / speed) 1000

/-- The stepping loop of `executeNextStep`, driven to completion:
`exec i` is the outcome of dispatching step `i`, `nav i` whether the
page became ready after the navigation of step `i`, `fuel` bounds the
recursion (one unit per scheduled call).  Returns the final playback
state, the list of executed steps (index and type, in execution order),
and the list of scheduled inter-step delays. -/
def runSteps (exec : Nat → StepOutcome) (nav : Nat → Bool) (flow : Flow) :
    Nat → PlaybackState → PlaybackState × List (Nat × StepType) × List ℚ
  | 0, st => (st, [], [])
  | fuel + 1, st =>
    if !st.isPlaying || st.isPaused then (st, [], [])
    else
      match flow.steps[st.currentStepIndex]? with
      | Option.none => (stopPlayback st, [], [])
      | some step =>
        if step.type == .navigation && (truthyStr step.url).isSome then
          if nav st.currentStepIndex then
            let st' := { st with currentStepIndex := st.currentStepIndex + 1 }
            let d := schedDelayNav flow st'.currentStepIndex st.options.speed
            let r := runSteps exec nav flow fuel st'
            (r.1, (st.currentStepIndex, step.type) :: r.2.1, d :: r.2.2)
          else (stopPlayback st, [(st.currentStepIndex, step.type)], [])
        else
          match exec st.currentStepIndex with
          | .success =>
            let st' := { st with currentStepIndex := st.currentStepIndex + 1 }
            let d := schedDelay flow st'.currentStepIndex st.options.speed
            let r := runSteps exec nav flow fuel st'
            (r.1, (st.currentStepIndex, step.type) :: r.2.1, d :: r.2.2)
          | .failed =>
            if st.options.stopOnError then
              (stopPlayback st, [(st.currentStepIndex, step.type)], [])
            else
              let st' := { st with currentStepIndex := st.currentStepIndex + 1 }
              let d := schedDelay flow st'.currentStepIndex st.options.speed
              let r := runSteps exec nav flow fuel st'
              (r.1, (st.currentStepIndex, step.type) :: r.2.1, d :: r.2.2)
          | .threw =>
            if st.options.stopOnError then
              (stopPlayback st, [(st.currentStepIndex, step.type)], [])
            else
              let st' := { st with currentStepIndex := st.currentStepIndex + 1 }
              let r := runSteps exec nav flow fuel st'
              (r.1, (st.currentStepIndex, step.type) :: r.2.1, (500 : ℚ) :: r.2.2)

/-! ### Recording capturer (content capture module) -/

def INPUT_DEBOUNCE_MS : Int := 500

/-- Model of `getDelay()` across a session: thread `lastEventTime` (seeded with
the `startRecording` time) through the step-creation times, returning
each step's `delay`. -/
def delaysOf (last : Int) : List Int → List Int
  | [] => []
  | t :: ts => (t - last) :: delaysOf t ts

/-- The per-element input debounce of `handleInput` / `stopRecording`,
for one text control.  `pending` is the armed timer (fire time and the
control's value when it was armed); each event clears and re-arms the
timer for `t + 500`; a timer that fires before the next event (and
before the stop) records its value; at stop time a still-pending timer
is cleared and its value recorded only when the value is non-empty
(`if (target.value)`). -/
def debounceRun (pending : Option (Int × String)) (stopTime : Int) :
    List (Int × String) → List (Int × String)
  | [] =>
    match pending with
    | Option.none => []
    | some (ft, v) =>
      if ft < stopTime then [(ft, v)]
      else if v = "" then [] else [(stopTime, v)]
  | (t, v) :: rest =>
    match pending with
    | Option.none => debounceRun (some (t + INPUT_DEBOUNCE_MS, v)) stopTime rest
    | some (ft, pv) =>
      if ft ≤ t then
        (ft, pv) :: debounceRun (some (t + INPUT_DEBOUNCE_MS, v)) stopTime rest
      else
        debounceRun (some (t + INPUT_DEBOUNCE_MS, v)) stopTime rest

/-- The recorded input steps (fire time and value) produced by a list of
input events on one text control, the session stopping at `stopTime`. -/
def capturedInputs (events : List (Int × String)) (stopTime : Int) : List (Int × String) :=
  debounceRun Option.none stopTime events

/-- Model of `recordStep`: a step reaching `recordStep` while `isRecording` is
false is dropped. -/
def recordStep (isRecording : Bool) (recorded : List (Int × String))
    (step : Int × String) : List (Int × String) :=
  if isRecording then recorded ++ [step] else recorded

/-- The last event of a nonempty burst (used to state the debounce
properties). -/
def lastOf : (Int × String) → List (Int × String) → (Int × String)
  | p, [] => p
  | _, q :: rest => lastOf q rest

/-! ### Storage (utils/storage.ts) -/

/-- JS `Array.prototype.findIndex`. -/
def findIndexAux (p : Flow → Bool) : List Flow → Option Nat
  | [] => Option.none
  | f :: fs => if p f then some 0 else (findIndexAux p fs).map (· + 1)

/-- JS `flows[i] = v` (in-bounds assignment). -/
def setAt : List Flow → Nat → Flow → List Flow
  | [], _, _ => []
  | _ :: fs, 0, g => g :: fs
  | f :: fs, n + 1, g => f :: setAt fs n g

/-- Model of `saveFlow`: find the stored flow with the same id; replace it with
the new flow stamped `updatedAt = now`, or push the new flow unchanged
when no stored flow has that id. -/
def saveFlow (now : ℚ) (flows : List Flow) (flow : Flow) : List Flow :=
  match findIndexAux (fun f => f.id == flow.id) flows with
  | some i => setAt flows i { flow with updatedAt := now }
  | Option.none => flows ++ [flow]

end FlowRec

namespace FlowRec

/-! ### JSON values and import/export (utils/export.ts) -/

/-- A parsed JSON value (the result of `JSON.parse` on an import file);
numbers are JS numbers (ℚ). -/
inductive JVal where
  | null
  | bool (b : Bool)
  | num (q : ℚ)
  | str (s : String)
  | arr (xs : List JVal)
  | obj (fields : List (String × JVal))

/-- Property access `v[n]` (`undefined` on non-objects or missing
keys). -/
def jGet : JVal → String → Option JVal
  | .obj fields, n => (fields.find? (fun p => p.1 == n)).map Prod.snd
  | _, _ => Option.none

/-- JS truthiness of a JSON value. -/
def jTruthy : JVal → Bool
  | .null => false
  | .bool b => b
  | .num q => !(q == 0)
  | .str s => !(s == "")
  | .arr _ => true
  | .obj _ => true

/-- Model of `v[n]` when it is truthy. -/
def jGetTruthy (v : JVal) (n : String) : Option JVal :=
  match jGet v n with
  | some x => if jTruthy x then some x else Option.none
  | Option.none => Option.none

/-- Model of `Array.isArray`. -/
def isArr : JVal → Option (List JVal)
  | .arr xs => some xs
  | _ => Option.none

/-- The fields produced by object spread `{...v}`: an object's own
fields, an array's index-keyed fields (`typeof [] === 'object'`), and
nothing for primitives. -/
def spreadFields : JVal → Option (List (String × JVal))
  | .obj fs => some fs
  | .arr xs => some ((xs.enum).map (fun p => (Nat.repr p.1, p.2)))
  | _ => Option.none

/-- Model of `{...fields, n: v}` for objects whose keys are unique: the existing
binding of `n` is overwritten in place, a fresh key is appended. -/
def setField : List (String × JVal) → String → JVal → List (String × JVal)
  | [], n, v => [(n, v)]
  | p :: rest, n, v => if p.1 == n then (n, v) :: rest else p :: setField rest n v

/-- One step of `validateAndPrepareFlow`'s map: reject a falsy or
non-object step, otherwise `{...step, id: generateId()}` with `genId c`
as the freshly generated id. -/
def prepareStep (genId : Nat → String) (c : Nat) (step : JVal) : Except String JVal :=
  if jTruthy step then
    match spreadFields step with
    | some fs => .ok (.obj (setField fs "id" (.str (genId c))))
    | Option.none => .error "Invalid step data"
  else .error "Invalid step data"

/-- Model of `f.steps.map(...)` with the id-generation counter threaded in call
order; the first thrown error propagates. -/
def prepareSteps (genId : Nat → String) : Nat → List JVal → Except String (List JVal)
  | _, [] => .ok []
  | c, s :: rest =>
    match prepareStep genId c s with
    | .error e => .error e
    | .ok s' =>
      match prepareSteps genId (c + 1) rest with
      | .error e => .error e
      | .ok rest' => .ok (s' :: rest')

/-- Model of `validateAndPrepareFlow(flow)`: reject falsy / non-object flows and
flows without a truthy `name` or an array `steps`; regenerate the flow
id (`genId c`) and every step id (`genId (c+1)`, …), and stamp
`createdAt`/`updatedAt` with the import time.  Returns the prepared
flow and the next id counter. -/
def validateAndPrepareFlow (genId : Nat → String) (now : ℚ) (c : Nat) (flow : JVal) :
    Except String (JVal × Nat) :=
  if jTruthy flow then
    match spreadFields flow with
    | Option.none => .error "Invalid flow data"
    | some fs =>
      if (jGetTruthy flow "name").isSome then
        match jGet flow "steps" with
        | some stepsVal =>
          match isArr stepsVal with
          | some steps =>
            match prepareSteps genId (c + 1) steps with
            | .error e => .error e
            | .ok steps' =>
              .ok (.obj (setField (setField (setField (setField fs
                      "id" (.str (genId c)))
                      "steps" (.arr steps'))
                      "createdAt" (.num now))
                      "updatedAt" (.num now)),
                   c + 1 + steps.length)
          | Option.none => .error "Invalid flow structure"
        | Option.none => .error "Invalid flow structure"
      else .error "Invalid flow structure"
  else .error "Invalid flow data"

/-- Result of a successful import: a single flow or a bundle. -/
inductive ImportResult where
  | single (f : JVal)
  | bundle (fs : List JVal)

/-- Model of `data.flows.map(validateAndPrepareFlow)` with the counter threaded. -/
def importFlows (genId : Nat → String) (now : ℚ) : Nat → List JVal → Except String (List JVal)
  | _, [] => .ok []
  | c, f :: rest =>
    match validateAndPrepareFlow genId now c f with
    | .error e => .error e
    | .ok (f', c') =>
      match importFlows genId now c' rest with
      | .error e => .error e
      | .ok rest' => .ok (f' :: rest')

/-- The parsing/validation pipeline of `importFlow` after `JSON.parse`:
reject a missing/falsy `version`, prepare `data.flow` when truthy, else
prepare every element of an array `data.flows`, else reject. -/
def importFlow (genId : Nat → String) (now : ℚ) (data : JVal) : Except String ImportResult :=
  match jGetTruthy data "version" with
  | Option.none => .error "Invalid file format: missing version"
  | some _ =>
    match jGetTruthy data "flow" with
    | some fl =>
      match validateAndPrepareFlow genId now 0 fl with
      | .error e => .error e
      | .ok (f', _) => .ok (.single f')
    | Option.none =>
      match jGetTruthy data "flows" with
      | some v =>
        match isArr v with
        | some xs =>
          match importFlows genId now 0 xs with
          | .error e => .error e
          | .ok fs => .ok (.bundle fs)
        | Option.none => .error "Invalid file format: no flow data found"
      | Option.none => .error "Invalid file format: no flow data found"

/-- The editor's import handler: persist the imported flows only when
`importFlow` resolved; a rejected import leaves the persisted state
untouched and surfaces the error message.  The persistence operation is
abstract (`save`). -/
def handleImport (save : List JVal → JVal → List JVal)
    (imp : Except String ImportResult) (storage : List JVal) :
    List JVal × Option String :=
  match imp with
  | .error e => (storage, some e)
  | .ok (.single f) => (save storage f, Option.none)
  | .ok (.bundle fs) => (fs.foldl save storage, Option.none)

/-! JSON encodings of the data model (what `JSON.stringify` produces for
the records the extension builds, in creation order, optional fields
omitted when absent). -/

def stepTypeStr : StepType → String
  | .click => "click"
  | .input => "input"
  | .scroll => "scroll"
  | .navigation => "navigation"
  | .keypress => "keypress"
  | .select => "select"
  | .wait => "wait"

def selToJson (s : ElementSelector) : JVal :=
  .obj ([("css", .str s.css), ("xpath", .str s.xpath)] ++
        (match s.text with | some t => [("text", JVal.str t)] | Option.none => []) ++
        [("tagName", .str s.tagName),
         ("attributes", .obj (s.attributes.map (fun p => (p.1, JVal.str p.2))))])

def stepToJson (s : RecordedStep) : JVal :=
  .obj ([("id", .str s.id), ("type", .str (stepTypeStr s.type)),
         ("timestamp", .num s.timestamp), ("target", selToJson s.target)] ++
        (match s.value with | some v => [("value", JVal.str v)] | Option.none => []) ++
        (match s.position with
         | some p => [("position", JVal.obj [("x", .num p.1), ("y", .num p.2)])]
         | Option.none => []) ++
        (match s.scrollPosition with
         | some p => [("scrollPosition", JVal.obj [("x", .num p.1), ("y", .num p.2)])]
         | Option.none => []) ++
        (match s.url with | some u => [("url", JVal.str u)] | Option.none => []) ++
        [("delay", .num s.delay)] ++
        (match s.description with | some d => [("description", JVal.str d)] | Option.none => []))

def flowToJson (f : Flow) : JVal :=
  .obj ([("id", .str f.id), ("name", .str f.name)] ++
        (match f.description with | some d => [("description", JVal.str d)] | Option.none => []) ++
        [("steps", .arr (f.steps.map stepToJson)),
         ("createdAt", .num f.createdAt), ("updatedAt", .num f.updatedAt),
         ("startUrl", .str f.startUrl)])

/-- Model of `exportFlow`'s versioned envelope `{version, exportedAt, flow}`. -/
def exportEnvelope (exportedAt : ℚ) (f : Flow) : JVal :=
  .obj [("version", .str "1.0.0"), ("exportedAt", .num exportedAt), ("flow", flowToJson f)]

/-- The flow the round-trip CLAIM predicts for an import of an exported
flow: identical except that the flow id is the first fresh id, each step
id the following fresh ids in order, and both date stamps the import
time.  (Stated from the spec's words, for comparison with the code's
result.) -/
def importedFlowSpec (genId : Nat → String) (now : ℚ) (f : Flow) : Flow :=
  { f with id := genId 0,
           steps := f.steps.mapIdx (fun i s => { s with id := genId (i + 1) }),
           createdAt := now, updatedAt := now }

end FlowRec

namespace FlowRec

/-! ### Concrete instances used by the claims' counterexamples and
witnesses -/

def c1Doc : ElemList := .cons (.mk "div" [] "Hello World" .nil .none) .nil

def c1Sel : ElementSelector := ⟨"#missing", "/nope", some "Hello", "div", []⟩

def c1DocB : ElemList :=
  .cons (.mk "div" [] "X" .nil .none)
    (.cons (.mk "input" [("id", "target")] "" .nil .none) .nil)

def c1SelB : ElementSelector := ⟨"#missing", "/nope", some "X", "div", [("id", "target")]⟩

def c10Doc : ElemList := .cons (.mk "div" [] "" .nil .none) .nil

def c10SelP : ElementSelector :=
  ⟨"div", "/x", Option.none, "div", [("data-shadow-host-path", "]]]")]⟩

def c10SelS : ElementSelector := ⟨"#m", "/x", some "y", "]]]", []⟩

def c10SelW : ElementSelector := ⟨"div", "/x", some "y", "div", []⟩

/-- The sentinel target used for non-element steps. -/
def sentinelTarget : ElementSelector := ⟨"", "", Option.none, "window", []⟩

def c2StepA : RecordedStep :=
  { id := "a", type := .click, timestamp := 0, target := sentinelTarget,
    value := Option.none, position := Option.none, scrollPosition := Option.none,
    url := Option.none, delay := 0, description := Option.none }

def c2StepB : RecordedStep :=
  { c2StepA with id := "b", type := .input, value := some "hi", delay := 400 }

def c2StepC : RecordedStep :=
  { c2StepA with
    id := "c"
    type := .navigation
    url := some "https://x.test/page2"
    delay := 800 }

/-- The spec's example flow `[click A, input B, navigation C]`. -/
def c2Flow : Flow :=
  { id := "flow1", name := "Recording", description := Option.none,
    steps := [c2StepA, c2StepB, c2StepC], createdAt := 0, updatedAt := 0,
    startUrl := "https://x.test/" }

def c2St (stopOnError : Bool) : PlaybackState :=
  { isPlaying := true, isPaused := false, currentFlowId := some "flow1",
    currentStepIndex := 0,
    options := { speed := 1, stepByStep := false, stopOnError := stopOnError,
                 highlightElements := true } }

def c2exec : Nat → StepOutcome := fun _ => .failed

def c2nav : Nat → Bool := fun _ => true

def c3Step (i : String) : RecordedStep := { c2StepA with id := i, delay := 500 }

def c3Flow : Flow :=
  { c2Flow with id := "flow3", steps := [c3Step "s1", c3Step "s2"] }

def c3St (speed : ℚ) : PlaybackState :=
  { isPlaying := true, isPaused := false, currentFlowId := some "flow3",
    currentStepIndex := 0,
    options := { speed := speed, stepByStep := false, stopOnError := true,
                 highlightElements := true } }

def c3exec : Nat → StepOutcome := fun _ => .success

def c3FlowW : Flow :=
  { c2Flow with id := "flow3w", steps := [c3Step "s1", { c2StepA with id := "s2", delay := 5000 }] }

def c8Flow : Flow :=
  { id := "f1", name := "n", description := Option.none, steps := [],
    createdAt := 1, updatedAt := 42, startUrl := "u" }

def c8FlowB : Flow := { c8Flow with id := "f2", updatedAt := 7 }

def c4GenId : Nat → String := fun n => ofChars (List.replicate (n + 1) 'n')

def c4Step : RecordedStep :=
  { id := "old-step", type := .input, timestamp := 5,
    target := ⟨"#a", "/html", some "T", "input", [("id", "a")]⟩,
    value := some "v", position := Option.none, scrollPosition := Option.none,
    url := Option.none, delay := 9, description := Option.none }

def c4Flow : Flow :=
  { id := "old-flow", name := "My Flow", description := some "d", steps := [c4Step],
    createdAt := 2, updatedAt := 3, startUrl := "https://y.test/" }

def c9NoVersion : JVal := .obj [("flow", .obj [("name", .str "x")])]

def c9NoData : JVal := .obj [("version", .str "1.0.0")]

def c9BadFlow : JVal := .obj [("version", .str "1.0.0"), ("flow", .str "nope")]

def c9BadStructure : JVal := .obj [("version", .str "1.0.0"), ("flow", .obj [("name", .str "x")])]

def c9BadStep : JVal :=
  .obj [("version", .str "1.0.0"),
        ("flow", .obj [("name", .str "x"), ("steps", .arr [.null])])]

end FlowRec

namespace FlowRec

/-! ## Theorems -/

/-- First-success chaining yields `null` exactly when every strategy in
the list misses. -/
theorem chainE_ok_none_iff (rs : List (Except Unit (Option Elem))) :
    chainE rs = .ok Option.none ↔ ∀ r ∈ rs, r = .ok Option.none := by
  induction rs with
  | nil => simp [chainE]
  | cons r rs ih =>
    cases r with
    | error u => simp [chainE]
    | ok o =>
      cases o with
      | none => simp [chainE, ih]
      | some e => simp [chainE]

/-- The player resolver is the first-success chain of its nine
strategies, in source order. -/
theorem playerFindElement_eq_chain (doc : ElemList) (sel : ElementSelector) :
    playerFindElement doc sel = chainE (playerStrategyList doc sel) := by
  unfold playerFindElement playerStrategyList
  rcases pStratShadow doc sel with u | o
  · rfl
  rcases o with _ | e
  · rcases pStratCss doc sel with _ | e
    · rcases pStratXPath doc sel with _ | e
      · rcases pStratId doc sel with _ | e
        · rcases pStratAttr "name" doc sel with _ | e
          · rcases pStratAttr "placeholder" doc sel with _ | e
            · rcases pStratAttr "aria-label" doc sel with _ | e
              · rcases pStratAttr "data-testid" doc sel with _ | e
                · rcases pStratText doc sel with u | o
                  · rfl
                  · rcases o with _ | e <;> rfl
                · rfl
              · rfl
            · rfl
          · rfl
        · rfl
      · rfl
    · rfl
  · rfl

/-- The utils resolver is the first-success chain of its ten strategies,
in source order. -/
theorem selectorsFindElement_eq_chain (doc : ElemList) (sel : ElementSelector) :
    selectorsFindElement doc sel = chainE (selectorsStrategyList doc sel) := by
  unfold selectorsFindElement selectorsStrategyList
  rcases pStratCss doc sel with _ | e
  · rcases pStratXPath doc sel with _ | e
    · rcases sStratText doc sel with u | o
      · rfl
      rcases o with _ | e
      · rcases sStratId doc sel with _ | e
        · rcases sStratAttr "name" doc sel with _ | e
          · rcases sStratAttr "aria-label" doc sel with _ | e
            · rcases sStratAttr "placeholder" doc sel with _ | e
              · rcases sStratAttr "data-testid" doc sel with _ | e
                · rcases sStratRoleText doc sel with _ | e
                  · rcases sStratApprox doc sel with _ | e <;> rfl
                  · rfl
                · rfl
              · rfl
            · rfl
          · rfl
        · rfl
      · rfl
    · rfl
  · rfl

mutual
theorem textScanL_no_err : ∀ (es : ElemList) (tg tx : String) (q : SSel),
    parseSSel tg = some q → ∃ r, textScanL es tg tx = .ok r
  | .nil, _, _, _, _ => ⟨Option.none, rfl⟩
  | .cons e rest, tg, tx, q, h => by
    obtain ⟨r1, h1⟩ := textScanE_no_err e tg tx q h
    obtain ⟨r2, h2⟩ := textScanL_no_err rest tg tx q h
    cases r1 with
    | none => exact ⟨r2, by simp [textScanL, h1, h2]⟩
    | some y => exact ⟨some y, by simp [textScanL, h1]⟩

theorem textScanE_no_err : ∀ (e : Elem) (tg tx : String) (q : SSel),
    parseSSel tg = some q → ∃ r, textScanE e tg tx = .ok r
  | .mk t a x c sd, tg, tx, q, h => by
    obtain ⟨r1, h1⟩ := textScanS_no_err sd tg tx q h
    obtain ⟨r2, h2⟩ := textScanL_no_err c tg tx q h
    cases r1 with
    | none => exact ⟨r2, by simp [textScanE, h1, h2]⟩
    | some y => exact ⟨some y, by simp [textScanE, h1]⟩

theorem textScanS_no_err : ∀ (sd : ShadowDom) (tg tx : String) (q : SSel),
    parseSSel tg = some q → ∃ r, textScanS sd tg tx = .ok r
  | .none, _, _, _, _ => ⟨Option.none, rfl⟩
  | .mk sh, tg, tx, q, h => by
    obtain ⟨r2, h2⟩ := textScanL_no_err sh tg tx q h
    cases hf : (qsAllL q sh).find? (fun e => strTrim e.text == tx) with
    | none => exact ⟨r2, by simp [textScanS, h, hf, h2]⟩
    | some r => exact ⟨some r, by simp [textScanS, h, hf]⟩
end

theorem findByTextDeep_no_err (roots : ElemList) (tg tx : String) (q : SSel)
    (h : parseSSel tg = some q) : ∃ r, findByTextDeep roots tg tx = .ok r := by
  obtain ⟨r2, h2⟩ := textScanL_no_err roots tg tx q h
  cases hf : (qsAllL q roots).find? (fun e => strTrim e.text == tx) with
  | none => exact ⟨r2, by simp [findByTextDeep, h, hf, h2]⟩
  | some r => exact ⟨some r, by simp [findByTextDeep, h, hf]⟩

/-- The player resolver cannot throw once the shadow host-chain strategy
is skipped and the text strategy's tag query parses (or is skipped). -/
theorem playerFindElement_no_throw (doc : ElemList) (sel : ElementSelector)
    (h1 : truthyStr (sel.attr "data-shadow-host-path") = Option.none)
    (h2 : truthyStr sel.text = Option.none ∨ (parseSSel sel.tagName).isSome = true) :
    ∃ r, playerFindElement doc sel = .ok r := by
  have hsh : pStratShadow doc sel = .ok Option.none := by simp [pStratShadow, h1]
  have htxt : ∃ r, pStratText doc sel = .ok r := by
    rcases htr : truthyStr sel.text with _ | t
    · exact ⟨Option.none, by simp [pStratText, htr]⟩
    · rcases hq : parseSSel sel.tagName with _ | q
      · rcases h2 with h2 | h2
        · rw [htr] at h2; exact absurd h2 (by simp)
        · rw [hq] at h2; simp at h2
      · exact ⟨(qsAllL q doc).find? (fun e => strTrim e.text == t),
          by simp [pStratText, htr, hq]⟩
  obtain ⟨rt, hrt⟩ := htxt
  unfold playerFindElement
  rw [hsh]
  rcases pStratCss doc sel with _ | e
  · rcases pStratXPath doc sel with _ | e
    · rcases pStratId doc sel with _ | e
      · rcases pStratAttr "name" doc sel with _ | e
        · rcases pStratAttr "placeholder" doc sel with _ | e
          · rcases pStratAttr "aria-label" doc sel with _ | e
            · rcases pStratAttr "data-testid" doc sel with _ | e
              · exact ⟨rt, hrt⟩
              · exact ⟨some e, rfl⟩
            · exact ⟨some e, rfl⟩
          · exact ⟨some e, rfl⟩
        · exact ⟨some e, rfl⟩
      · exact ⟨some e, rfl⟩
    · exact ⟨some e, rfl⟩
  · exact ⟨some e, rfl⟩

/-- The utils resolver cannot throw once its text strategy's tag query
parses (or the text is absent). -/
theorem selectorsFindElement_no_throw (doc : ElemList) (sel : ElementSelector)
    (h2 : truthyStr sel.text = Option.none ∨ (parseSSel sel.tagName).isSome = true) :
    ∃ r, selectorsFindElement doc sel = .ok r := by
  have htxt : ∃ r, sStratText doc sel = .ok r := by
    rcases htr : truthyStr sel.text with _ | t
    · exact ⟨Option.none, by simp [sStratText, htr]⟩
    · rcases hq : parseSSel sel.tagName with _ | q
      · rcases h2 with h2 | h2
        · rw [htr] at h2; exact absurd h2 (by simp)
        · rw [hq] at h2; simp at h2
      · obtain ⟨r, hr⟩ := findByTextDeep_no_err doc sel.tagName t q hq
        exact ⟨r, by simp [sStratText, htr, hr]⟩
  obtain ⟨rt, hrt⟩ := htxt
  unfold selectorsFindElement
  rcases pStratCss doc sel with _ | e
  · rcases pStratXPath doc sel with _ | e
    · rw [hrt]
      rcases rt with _ | e
      · rcases sStratId doc sel with _ | e
        · rcases sStratAttr "name" doc sel with _ | e
          · rcases sStratAttr "aria-label" doc sel with _ | e
            · rcases sStratAttr "placeholder" doc sel with _ | e
              · rcases sStratAttr "data-testid" doc sel with _ | e
                · rcases sStratRoleText doc sel with _ | e
                  · exact ⟨sStratApprox doc sel, rfl⟩
                  · exact ⟨some e, rfl⟩
                · exact ⟨some e, rfl⟩
              · exact ⟨some e, rfl⟩
            · exact ⟨some e, rfl⟩
          · exact ⟨some e, rfl⟩
        · exact ⟨some e, rfl⟩
      · exact ⟨some e, rfl⟩
    · exact ⟨some e, rfl⟩
  · exact ⟨some e, rfl⟩

/-- C1 counterexample.  The claim's strategy order ends with role+text,
exact-text-by-tag and approximate-text strategies and promises `null`
only when every strategy fails.  (1) For `c1Sel` on `c1Doc` the
approximate-text strategy (the claim's last resort, present in the utils
resolver as `sStratApprox`) matches the `div`, yet the player's
`findElement` — which has no such strategy — returns `null`.  (2) For
`c1SelB` on `c1DocB` the claim's order tries the identifier lookup
before the exact-text match, so it would return the `input` with
`id="target"`; the utils `findElement` tries exact text third and
returns the `div` instead. -/
theorem C1_counterexample :
    (playerFindElement c1Doc c1Sel = .ok Option.none ∧
      sStratApprox c1Doc c1Sel = some (.mk "div" [] "Hello World" .nil .none)) ∧
    (selectorsFindElement c1DocB c1SelB = .ok (some (.mk "div" [] "X" .nil .none)) ∧
      sStratId c1DocB c1SelB = some (.mk "input" [("id", "target")] "" .nil .none)) :=
  ⟨⟨rfl, rfl⟩, ⟨rfl, rfl⟩⟩

/-- C1 (amended): each resolver tries its strategies in a fixed order
with first success winning and `null` exactly when all fail — but the
orders are the implementations' own, not the spec's single list.  The
player's `findElement` tries: encapsulation host-chain, deep CSS, XPath,
identifier, name, placeholder, aria-label, data-testid, and exact
text-content scoped to the stored tag (light DOM only); it has no
role+text and no approximate-text strategy.  The utils `findElement`
tries: deep CSS, XPath, exact text-content scoped to the stored tag
(deep), identifier, name, aria-label, placeholder, data-testid,
role+exact-text, approximate text; it has no host-chain strategy. -/
theorem C1_resolution_order :
    (∀ (doc : ElemList) (sel : ElementSelector),
        playerFindElement doc sel = chainE (playerStrategyList doc sel)) ∧
    (∀ (doc : ElemList) (sel : ElementSelector),
        selectorsFindElement doc sel = chainE (selectorsStrategyList doc sel)) ∧
    (∀ (doc : ElemList) (sel : ElementSelector),
        (playerFindElement doc sel = .ok Option.none ↔
          ∀ r ∈ playerStrategyList doc sel, r = .ok Option.none) ∧
        (selectorsFindElement doc sel = .ok Option.none ↔
          ∀ r ∈ selectorsStrategyList doc sel, r = .ok Option.none)) :=
  ⟨playerFindElement_eq_chain, selectorsFindElement_eq_chain,
   fun doc sel =>
     ⟨by rw [playerFindElement_eq_chain]; exact chainE_ok_none_iff _,
      by rw [selectorsFindElement_eq_chain]; exact chainE_ok_none_iff _⟩⟩

/-- C10 counterexample: `findElement` CAN throw.  The player's
`findByShadowPath` queries each host selector with no `try`/`catch`, so
a selector whose `data-shadow-host-path` attribute is the invalid
selector `"]]]"` makes `findElement` propagate the syntax error; the
utils resolver's `findByTextDeep` queries the stored `tagName` with no
`try`/`catch`, so a selector with `text` set and the invalid tag name
`"]]]"` does the same. -/
theorem C10_counterexample :
    playerFindElement c10Doc c10SelP = .error () ∧
    selectorsFindElement c10Doc c10SelS = .error () := ⟨rfl, rfl⟩

/-- C10 (amended): invalid `css` in the deep-CSS strategy and XPath
evaluation errors are caught internally, and both resolvers return an
element-or-null result for every selector whose shadow host-chain
strategy is skipped (player) and whose text strategy either is skipped
or queries a syntactically valid tag selector; but the host-chain
strategy and the text strategies issue unguarded queries, so outside
those conditions `findElement` can throw. -/
theorem C10_no_throw :
    ∀ (doc : ElemList) (sel : ElementSelector),
      truthyStr (sel.attr "data-shadow-host-path") = Option.none →
      (truthyStr sel.text = Option.none ∨ (parseSSel sel.tagName).isSome = true) →
      (∃ r, playerFindElement doc sel = .ok r) ∧
      (∃ r, selectorsFindElement doc sel = .ok r) :=
  fun doc sel h1 h2 =>
    ⟨playerFindElement_no_throw doc sel h1 h2, selectorsFindElement_no_throw doc sel h2⟩

/-- Witness for `C10_no_throw` at a concrete selector and document. -/
theorem C10_witness :
    (∃ r, playerFindElement c10Doc c10SelW = .ok r) ∧
    (∃ r, selectorsFindElement c10Doc c10SelW = .ok r) :=
  C10_no_throw c10Doc c10SelW rfl (Or.inr rfl)

end FlowRec

namespace FlowRec

/-- Claim C2: when the step at the current index fails to resolve or
simulate (a `success: false` response or a thrown dispatch), then with
`stopOnError = true` the run executes nothing after the failing step and
ends with `isPlaying = false`, `isPaused = false` and the index reset to
0; with `stopOnError = false` the index advances past the failing step
and the run continues exactly as a run started from the next index. -/
theorem C2_stop_on_error :
    ∀ (exec : Nat → StepOutcome) (nav : Nat → Bool) (flow : Flow) (st : PlaybackState)
      (fuel : Nat) (step : RecordedStep),
      st.isPlaying = true →
      st.isPaused = false →
      flow.steps[st.currentStepIndex]? = some step →
      (step.type == StepType.navigation && (truthyStr step.url).isSome) = false →
      (exec st.currentStepIndex = .failed ∨ exec st.currentStepIndex = .threw) →
      (st.options.stopOnError = true →
        runSteps exec nav flow (fuel + 1) st =
          (stopPlayback st, [(st.currentStepIndex, step.type)], []) ∧
        (stopPlayback st).isPlaying = false ∧
        (stopPlayback st).isPaused = false ∧
        (stopPlayback st).currentStepIndex = 0) ∧
      (st.options.stopOnError = false →
        (runSteps exec nav flow (fuel + 1) st).2.1 =
          (st.currentStepIndex, step.type) ::
            (runSteps exec nav flow fuel
              { st with currentStepIndex := st.currentStepIndex + 1 }).2.1 ∧
        (runSteps exec nav flow (fuel + 1) st).1 =
          (runSteps exec nav flow fuel
            { st with currentStepIndex := st.currentStepIndex + 1 }).1) := by
  intro exec nav flow st fuel step h1 h2 h3 h4 h5
  constructor
  · intro hstop
    refine ⟨?_, by simp [stopPlayback], by simp [stopPlayback], by simp [stopPlayback]⟩
    rcases h5 with h5 | h5 <;>
      simp [runSteps, h1, h2, h3, h4, h5, hstop]
  · intro hstop
    rcases h5 with h5 | h5 <;>
      constructor <;>
        simp [runSteps, h1, h2, h3, h4, h5, hstop]

/-- Witness for `C2_stop_on_error` on the spec's example flow
`[click A, input B, navigation C]` with every dispatch failing, once
with `stopOnError = true` and once with `false`. -/
theorem C2_witness :
    (((c2St true).options.stopOnError = true →
        runSteps c2exec c2nav c2Flow 4 (c2St true) =
          (stopPlayback (c2St true), [(0, StepType.click)], []) ∧
        (stopPlayback (c2St true)).isPlaying = false ∧
        (stopPlayback (c2St true)).isPaused = false ∧
        (stopPlayback (c2St true)).currentStepIndex = 0) ∧
      ((c2St true).options.stopOnError = false →
        (runSteps c2exec c2nav c2Flow 4 (c2St true)).2.1 =
          (0, StepType.click) ::
            (runSteps c2exec c2nav c2Flow 3
              { c2St true with currentStepIndex := 1 }).2.1 ∧
        (runSteps c2exec c2nav c2Flow 4 (c2St true)).1 =
          (runSteps c2exec c2nav c2Flow 3
            { c2St true with currentStepIndex := 1 }).1)) ∧
    (((c2St false).options.stopOnError = true →
        runSteps c2exec c2nav c2Flow 4 (c2St false) =
          (stopPlayback (c2St false), [(0, StepType.click)], []) ∧
        (stopPlayback (c2St false)).isPlaying = false ∧
        (stopPlayback (c2St false)).isPaused = false ∧
        (stopPlayback (c2St false)).currentStepIndex = 0) ∧
      ((c2St false).options.stopOnError = false →
        (runSteps c2exec c2nav c2Flow 4 (c2St false)).2.1 =
          (0, StepType.click) ::
            (runSteps c2exec c2nav c2Flow 3
              { c2St false with currentStepIndex := 1 }).2.1 ∧
        (runSteps c2exec c2nav c2Flow 4 (c2St false)).1 =
          (runSteps c2exec c2nav c2Flow 3
            { c2St false with currentStepIndex := 1 }).1)) :=
  ⟨C2_stop_on_error c2exec c2nav c2Flow (c2St true) 3 c2StepA rfl rfl rfl rfl (Or.inl rfl),
   C2_stop_on_error c2exec c2nav c2Flow (c2St false) 3 c2StepA rfl rfl rfl rfl (Or.inl rfl)⟩

/-- Helper for claim C3: the sequence of executed steps does not depend
on the configured speed. -/
theorem runSteps_exec_speed_indep (exec : Nat → StepOutcome) (nav : Nat → Bool) (flow : Flow) :
    ∀ (fuel : Nat) (st : PlaybackState) (sp : ℚ),
      (runSteps exec nav flow fuel
        { st with options := { st.options with speed := sp } }).2.1 =
      (runSteps exec nav flow fuel st).2.1 := by
  intro fuel
  induction fuel with
  | zero => intro st sp; rfl
  | succ fuel ih =>
    intro st sp
    obtain ⟨p, pa, fid, idx, ⟨spd, sbs, soe, hl⟩⟩ := st
    simp only [runSteps]
    cases hp : (!p || pa) with
    | true => rfl
    | false =>
      simp only [Bool.false_eq_true, if_false]
      cases hs : flow.steps[idx]? with
      | none => rfl
      | some step =>
        cases hn : (step.type == StepType.navigation && (truthyStr step.url).isSome) with
        | true =>
          simp only [hn, if_true]
          cases hnav : nav idx with
          | true =>
            simp only [if_true]
            exact congrArg (List.cons _)
              (ih ⟨p, pa, fid, idx + 1, spd, sbs, soe, hl⟩ sp)
          | false => rfl
        | false =>
          simp only [hn, Bool.false_eq_true, if_false]
          cases he : exec idx with
          | success =>
            exact congrArg (List.cons _)
              (ih ⟨p, pa, fid, idx + 1, spd, sbs, soe, hl⟩ sp)
          | failed =>
            cases soe with
            | true => rfl
            | false =>
              exact congrArg (List.cons _)
                (ih ⟨p, pa, fid, idx + 1, spd, sbs, false, hl⟩ sp)
          | threw =>
            cases soe with
            | true => rfl
            | false =>
              exact congrArg (List.cons _)
                (ih ⟨p, pa, fid, idx + 1, spd, sbs, false, hl⟩ sp)

/-- Claim C3 (amended): the executed actions are unchanged by the speed
setting, and doubling the speed halves the RAW pacing delay
`delay / speed`; the delay actually scheduled is
`max (delay / speed) 300`, so the scheduled delay halves exactly when
the halved raw delay still clears the 300 ms floor. -/
theorem C3_speed_scaling :
    (∀ (exec : Nat → StepOutcome) (nav : Nat → Bool) (flow : Flow) (fuel : Nat)
        (st : PlaybackState) (sp : ℚ),
        (runSteps exec nav flow fuel
          { st with options := { st.options with speed := sp } }).2.1 =
        (runSteps exec nav flow fuel st).2.1) ∧
    (∀ (flow : Flow) (i : Nat) (s : ℚ),
        delayAt flow i / (2 * s) = (delayAt flow i / s) / 2) ∧
    (∀ (flow : Flow) (i : Nat) (s : ℚ), 0 < s →
        300 ≤ delayAt flow i / (2 * s) →
        schedDelay flow i (2 * s) = schedDelay flow i s / 2) := by
  refine ⟨runSteps_exec_speed_indep, ?_, ?_⟩
  · intro flow i s
    rw [div_div, mul_comm]
  · intro flow i s hs h300
    have hd : delayAt flow i / s = delayAt flow i / (2 * s) * 2 := by
      field_simp
      ring
    have h600 : (300 : ℚ) ≤ delayAt flow i / s := by
      rw [hd]; linarith
    unfold schedDelay
    rw [max_eq_left h300, max_eq_left h600, hd]
    ring

/-- C3 counterexample: on a flow whose next recorded delay is 500 ms,
the scheduled delay at speed 1 is 500 ms but at speed 2 it is the
300 ms floor, not 250 ms — doubling the speed did not halve the
scheduled delay. -/
theorem C3_counterexample :
    (runSteps c3exec (fun _ => true) c3Flow 3 (c3St 1)).2.2 = [500, 500] ∧
    (runSteps c3exec (fun _ => true) c3Flow 3 (c3St 2)).2.2 = [300, 300] ∧
    ¬((300 : ℚ) = 500 / 2) := by
  refine ⟨?_, ?_, by norm_num⟩ <;>
    simp [runSteps, c3St, c3Flow, c3exec, c3Step, c2StepA, c2Flow, sentinelTarget,
      schedDelay, delayAt, stopPlayback, truthyStr, max_def] <;>
    norm_num

/-- Witness for `C3_speed_scaling` at a recorded delay of 5000 ms, where
the halved raw delay still clears the floor. -/
theorem C3_witness :
    (0 : ℚ) < 1 ∧ (300 : ℚ) ≤ delayAt c3FlowW 1 / (2 * 1) ∧
    schedDelay c3FlowW 1 (2 * 1) = schedDelay c3FlowW 1 1 / 2 := by
  have hd : delayAt c3FlowW 1 = 5000 := by
    simp [delayAt, c3FlowW, c2Flow, c3Step, c2StepA]
  refine ⟨by norm_num, by rw [hd]; norm_num, ?_⟩
  exact C3_speed_scaling.2.2 c3FlowW 1 1 (by norm_num) (by rw [hd]; norm_num)

end FlowRec

namespace FlowRec

/-- Helper: running one debounce burst whose gaps all stay strictly
inside the 500 ms window: the timer set by the last event either fires
normally (before the stop) or is flushed at stop time when its value is
non-empty, and no earlier event records anything. -/
theorem debounceRun_burst (stop : Int) :
    ∀ (events : List (Int × String)) (t : Int) (v : String),
      List.Chain' (fun a b => a.1 ≤ b.1 ∧ b.1 < a.1 + INPUT_DEBOUNCE_MS) ((t, v) :: events) →
      debounceRun (some (t + INPUT_DEBOUNCE_MS, v)) stop events =
        (if (lastOf (t, v) events).1 + INPUT_DEBOUNCE_MS < stop then
          [((lastOf (t, v) events).1 + INPUT_DEBOUNCE_MS, (lastOf (t, v) events).2)]
        else if (lastOf (t, v) events).2 = "" then []
        else [(stop, (lastOf (t, v) events).2)])
  | [], t, v, _ => by simp [debounceRun, lastOf]
  | (t2, v2) :: rest, t, v, h => by
    have hgap : t2 < t + INPUT_DEBOUNCE_MS := (List.chain'_cons.mp h).1.2
    have ht : ¬(t + INPUT_DEBOUNCE_MS ≤ t2) := by omega
    have ih := debounceRun_burst stop rest t2 v2 (List.chain'_cons.mp h).2
    simp only [debounceRun, ht, if_false]
    rw [ih]
    rfl

/-- Claim C5: a burst of input events on one text control, each arriving
within 500 ms of the previous one and with the session still running
when the final timer fires, records exactly one input step, stamped at
the final event's time plus the debounce interval and carrying the
control's value at that moment (the final value). -/
theorem C5_input_debounce :
    ∀ (t : Int) (v : String) (rest : List (Int × String)) (stop : Int),
      List.Chain' (fun a b => a.1 ≤ b.1 ∧ b.1 < a.1 + INPUT_DEBOUNCE_MS) ((t, v) :: rest) →
      (lastOf (t, v) rest).1 + INPUT_DEBOUNCE_MS < stop →
      capturedInputs ((t, v) :: rest) stop =
        [((lastOf (t, v) rest).1 + INPUT_DEBOUNCE_MS, (lastOf (t, v) rest).2)] := by
  intro t v rest stop hchain hstop
  unfold capturedInputs
  simp only [debounceRun]
  rw [debounceRun_burst stop rest t v hchain]
  simp [hstop]

/-- Witness for `C5_input_debounce`: three keystrokes at 0, 100 and
450 ms yield the single step `(950, "abc")`. -/
theorem C5_witness :
    capturedInputs [(0, "a"), (100, "ab"), (450, "abc")] 2000 = [(950, "abc")] :=
  C5_input_debounce 0 "a" [(100, "ab"), (450, "abc")] 2000
    (by norm_num [List.chain'_cons, INPUT_DEBOUNCE_MS]) (by decide)

/-- Claim C6 (amended): each captured step's `delay` is the elapsed time
since the previous captured event, with `lastEventTime` seeded by the
`startRecording` time — so the FIRST step's delay is the elapsed time
since the session started, which is 0 only when the first event
coincides with the session start. -/
theorem C6_delay_computation :
    (∀ (start : Int) (times : List Int),
        delaysOf start times = times.zipWith (fun a b => a - b) (start :: times)) ∧
    (∀ (start t : Int) (ts : List Int),
        (delaysOf start (t :: ts)).head? = some (t - start)) := by
  constructor
  · intro start times
    induction times generalizing start with
    | nil => rfl
    | cons t ts ih => simp [delaysOf, ih]
  · intro start t ts
    rfl

/-- C6 counterexample: a session started at time 0 whose first event
arrives at 250 ms records a first delay of 250, not the 0 the claim
requires. -/
theorem C6_counterexample :
    delaysOf 0 [250] = [250] ∧ (250 : Int) ≠ 0 := ⟨rfl, by decide⟩

/-- Claim C7 (amended): a pending debounced input is flushed as a final
recorded step at stop time only when its value is NON-EMPTY
(`if (target.value)`); an empty pending value is silently dropped.
After `stopRecording`, `recordStep` drops every step while `isRecording`
is false. -/
theorem C7_stop_flush :
    (∀ (t : Int) (v : String) (rest : List (Int × String)) (stop : Int),
        List.Chain' (fun a b => a.1 ≤ b.1 ∧ b.1 < a.1 + INPUT_DEBOUNCE_MS) ((t, v) :: rest) →
        ¬((lastOf (t, v) rest).1 + INPUT_DEBOUNCE_MS < stop) →
        (lastOf (t, v) rest).2 ≠ "" →
        capturedInputs ((t, v) :: rest) stop = [(stop, (lastOf (t, v) rest).2)]) ∧
    (∀ (recorded : List (Int × String)) (step : Int × String),
        recordStep false recorded step = recorded) := by
  constructor
  · intro t v rest stop hchain hpend hne
    unfold capturedInputs
    simp only [debounceRun]
    rw [debounceRun_burst stop rest t v hchain]
    simp [hpend, hne]
  · intro recorded step
    rfl

/-- C7 counterexample: typing "a" then clearing the field to "" and
stopping at 200 ms (timer still pending) records NOTHING — the pending
debounced input is not flushed, because its value is empty. -/
theorem C7_counterexample :
    capturedInputs [(0, "a"), (100, "")] 200 = [] := rfl

/-- Witness for `C7_stop_flush`: a pending "hello" at stop time 300 is
flushed as `(300, "hello")`, and `recordStep` with `isRecording = false`
drops its step. -/
theorem C7_witness :
    capturedInputs [(0, "hello")] 300 = [(300, "hello")] ∧
    recordStep false [(950, "abc")] (1200, "x") = [(950, "abc")] :=
  ⟨C7_stop_flush.1 0 "hello" [] 300 (by simp) (by decide) (by decide),
   C7_stop_flush.2 _ _⟩

end FlowRec

namespace FlowRec

/-- Helper: `saveFlow` when the head of the store matches the id. -/
theorem saveFlow_cons_eq (now : ℚ) (g : Flow) (gs : List Flow) (f : Flow)
    (h : (g.id == f.id) = true) :
    saveFlow now (g :: gs) f = { f with updatedAt := now } :: gs := by
  simp [saveFlow, findIndexAux, h, setAt]

/-- Helper: `saveFlow` skips a non-matching head. -/
theorem saveFlow_cons_ne (now : ℚ) (g : Flow) (gs : List Flow) (f : Flow)
    (h : (g.id == f.id) = false) :
    saveFlow now (g :: gs) f = g :: saveFlow now gs f := by
  simp only [saveFlow, findIndexAux, h, Bool.false_eq_true, if_false]
  cases hi : findIndexAux (fun x => x.id == f.id) gs with
  | none => simp
  | some i => simp [setAt]

/-- Claim C8 (amended): on a store with distinct ids, `saveFlow` leaves
exactly one flow with the saved id and every other stored flow
unchanged; when a flow with that id already exists it is replaced by the
new flow with `updatedAt` stamped to the save time, but when the id is
NEW the flow is appended UNCHANGED — its `updatedAt` field is not
stamped. -/
theorem C8_saveFlow_upsert :
    ∀ (now : ℚ) (flows : List Flow) (f : Flow),
      (flows.map Flow.id).Nodup →
      ((∃ g ∈ flows, g.id = f.id) →
          saveFlow now flows f =
            flows.map (fun g => if g.id == f.id then { f with updatedAt := now } else g)) ∧
      ((¬∃ g ∈ flows, g.id = f.id) → saveFlow now flows f = flows ++ [f]) ∧
      ((saveFlow now flows f).filter (fun g => g.id == f.id)).length = 1 ∧
      (∀ g ∈ flows, g.id ≠ f.id → g ∈ saveFlow now flows f) := by
  intro now flows f hnodup
  induction flows with
  | nil =>
    refine ⟨by simp, fun _ => rfl, ?_, by simp⟩
    simp [saveFlow, findIndexAux]
  | cons g gs ih =>
    rw [List.map_cons, List.nodup_cons] at hnodup
    obtain ⟨hgid, hnd⟩ := hnodup
    obtain ⟨ih1, ih2, ih3, ih4⟩ := ih hnd
    by_cases hg : g.id = f.id
    · have hgb : (g.id == f.id) = true := by simpa using hg
      have hgs : ∀ g' ∈ gs, g'.id ≠ f.id := by
        intro g' hmem heq
        apply hgid
        have hin : g'.id ∈ gs.map Flow.id := List.mem_map_of_mem Flow.id hmem
        rwa [heq, ← hg] at hin
      rw [saveFlow_cons_eq now g gs f hgb]
      refine ⟨?_, ?_, ?_, ?_⟩
      · intro _
        rw [List.map_cons]
        simp only [hgb, if_true]
        congr 1
        have hcg : ∀ g' ∈ gs,
            (if g'.id == f.id then { f with updatedAt := now } else g') = id g' := by
          intro g' hmem
          simp [hgs g' hmem]
        rw [List.map_congr_left hcg, List.map_id]
      · intro hne
        exact absurd ⟨g, by simp, hg⟩ hne
      · rw [List.filter_cons]
        have hid : (({ f with updatedAt := now } : Flow).id == f.id) = true := by simp
        simp only [hid, if_true]
        have hnilf : gs.filter (fun g' => g'.id == f.id) = [] := by
          rw [List.filter_eq_nil_iff]
          intro g' hmem
          simp [hgs g' hmem]
        simp [hnilf]
      · intro g' hmem hne
        rcases List.mem_cons.mp hmem with rfl | hmem'
        · exact absurd hg hne
        · exact List.mem_cons_of_mem _ hmem'
    · have hgb : (g.id == f.id) = false := by simpa using hg
      rw [saveFlow_cons_ne now g gs f hgb]
      refine ⟨?_, ?_, ?_, ?_⟩
      · rintro ⟨g', hmem, heq⟩
        rcases List.mem_cons.mp hmem with rfl | hmem'
        · exact absurd heq hg
        · rw [List.map_cons]
          simp only [hgb, Bool.false_eq_true, if_false]
          rw [ih1 ⟨g', hmem', heq⟩]
      · intro hne
        have hne' : ¬∃ g' ∈ gs, g'.id = f.id :=
          fun ⟨g', hm, he⟩ => hne ⟨g', List.mem_cons_of_mem _ hm, he⟩
        rw [ih2 hne']
        rfl
      · rw [List.filter_cons]
        simp only [hgb, Bool.false_eq_true, if_false]
        exact ih3
      · intro g' hmem hne
        rcases List.mem_cons.mp hmem with rfl | hmem'
        · exact List.mem_cons_self _ _
        · exact List.mem_cons_of_mem _ (ih4 g' hmem' hne)

/-- C8 counterexample: saving a NEW flow (empty store) at time 100
stores it with its own `updatedAt = 42` — the save time is not stamped
on the insert path, contradicting the claim's "in either case". -/
theorem C8_counterexample :
    saveFlow 100 [] c8Flow = [c8Flow] ∧ c8Flow.updatedAt = 42 ∧ (42 : ℚ) ≠ 100 :=
  ⟨rfl, rfl, by norm_num⟩

/-- Witness for `C8_saveFlow_upsert` on a one-element store with a
different id. -/
theorem C8_witness :
    ((∃ g ∈ [c8FlowB], g.id = c8Flow.id) →
        saveFlow 100 [c8FlowB] c8Flow =
          [c8FlowB].map
            (fun g => if g.id == c8Flow.id then { c8Flow with updatedAt := 100 } else g)) ∧
    ((¬∃ g ∈ [c8FlowB], g.id = c8Flow.id) →
        saveFlow 100 [c8FlowB] c8Flow = [c8FlowB] ++ [c8Flow]) ∧
    ((saveFlow 100 [c8FlowB] c8Flow).filter (fun g => g.id == c8Flow.id)).length = 1 ∧
    (∀ g ∈ [c8FlowB], g.id ≠ c8Flow.id → g ∈ saveFlow 100 [c8FlowB] c8Flow) :=
  C8_saveFlow_upsert 100 [c8FlowB] c8Flow (by simp)

end FlowRec

namespace FlowRec

/-- Helper: a falsy or non-object step anywhere in the array makes the
step-preparation map throw `Invalid step data`. -/
theorem prepareSteps_err (genId : Nat → String) :
    ∀ (steps : List JVal) (c : Nat),
      (∃ s ∈ steps, jTruthy s = false ∨ spreadFields s = Option.none) →
      prepareSteps genId c steps = .error "Invalid step data"
  | [], _, h => by simp at h
  | s :: rest, c, h => by
    by_cases hs : jTruthy s = false ∨ spreadFields s = Option.none
    · have hbad : prepareStep genId c s = .error "Invalid step data" := by
        rcases hs with hs | hs
        · simp [prepareStep, hs]
        · cases ht : jTruthy s with
          | false => simp [prepareStep, ht]
          | true => simp [prepareStep, ht, hs]
      simp [prepareSteps, hbad]
    · push_neg at hs
      obtain ⟨hT, hS⟩ := hs
      have hT' : jTruthy s = true := by
        revert hT; cases jTruthy s <;> simp
      obtain ⟨fs, hfs⟩ : ∃ fs, spreadFields s = some fs := by
        cases hsf : spreadFields s with
        | none => exact absurd hsf hS
        | some fs => exact ⟨fs, rfl⟩
      have hrest : ∃ s' ∈ rest, jTruthy s' = false ∨ spreadFields s' = Option.none := by
        rcases h with ⟨s', hmem, hbad'⟩
        rcases List.mem_cons.mp hmem with rfl | hmem'
        · rcases hbad' with hb | hb
          · exact absurd (hT'.symm.trans hb) (by simp)
          · exact absurd hb hS
        · exact ⟨s', hmem', hbad'⟩
      have ihr := prepareSteps_err genId rest (c + 1) hrest
      simp [prepareSteps, prepareStep, hT', hfs, ihr]

/-- Helper: a step array of truthy objects prepares successfully. -/
theorem prepareSteps_ok (genId : Nat → String) :
    ∀ (steps : List JVal) (c : Nat),
      (∀ s ∈ steps, jTruthy s = true ∧ (spreadFields s).isSome = true) →
      ∃ out, prepareSteps genId c steps = .ok out
  | [], _, _ => ⟨[], rfl⟩
  | s :: rest, c, h => by
    obtain ⟨hT, hS⟩ := h s (by simp)
    obtain ⟨fs, hfs⟩ := Option.isSome_iff_exists.mp hS
    obtain ⟨out, hout⟩ :=
      prepareSteps_ok genId rest (c + 1) (fun s' hm => h s' (List.mem_cons_of_mem _ hm))
    exact ⟨JVal.obj (setField fs "id" (.str (genId c))) :: out,
      by simp [prepareSteps, prepareStep, hT, hfs, hout]⟩

/-- Claim C9: `importFlow` rejects inputs without a truthy version
marker, inputs with neither a truthy `flow` nor an array `flows`, falsy
or non-object flows, flows without a truthy `name` or an array `steps`,
and falsy or non-object steps — each with its descriptive message;
structurally valid single-flow inputs resolve; and a rejected import
leaves the persisted state untouched whatever the persistence operation
does. -/
theorem C9_import_validation :
    (∀ (genId : Nat → String) (now : ℚ) (data : JVal),
        jGetTruthy data "version" = Option.none →
        importFlow genId now data = .error "Invalid file format: missing version") ∧
    (∀ (genId : Nat → String) (now : ℚ) (data w : JVal),
        jGetTruthy data "version" = some w →
        jGetTruthy data "flow" = Option.none →
        (∀ v, jGetTruthy data "flows" = some v → isArr v = Option.none) →
        importFlow genId now data = .error "Invalid file format: no flow data found") ∧
    (∀ (genId : Nat → String) (now : ℚ) (data w fl : JVal),
        jGetTruthy data "version" = some w →
        jGetTruthy data "flow" = some fl →
        (jTruthy fl = false ∨ spreadFields fl = Option.none) →
        importFlow genId now data = .error "Invalid flow data") ∧
    (∀ (genId : Nat → String) (now : ℚ) (data w fl : JVal)
        (fs : List (String × JVal)),
        jGetTruthy data "version" = some w →
        jGetTruthy data "flow" = some fl →
        jTruthy fl = true → spreadFields fl = some fs →
        ((jGetTruthy fl "name").isSome = false ∨
          (∀ sv, jGet fl "steps" = some sv → isArr sv = Option.none)) →
        importFlow genId now data = .error "Invalid flow structure") ∧
    (∀ (genId : Nat → String) (now : ℚ) (data w fl : JVal)
        (fs : List (String × JVal)) (steps : List JVal),
        jGetTruthy data "version" = some w →
        jGetTruthy data "flow" = some fl →
        jTruthy fl = true → spreadFields fl = some fs →
        (jGetTruthy fl "name").isSome = true →
        jGet fl "steps" = some (.arr steps) →
        (∃ s ∈ steps, jTruthy s = false ∨ spreadFields s = Option.none) →
        importFlow genId now data = .error "Invalid step data") ∧
    (∀ (genId : Nat → String) (now : ℚ) (data w fl : JVal)
        (fs : List (String × JVal)) (steps : List JVal),
        jGetTruthy data "version" = some w →
        jGetTruthy data "flow" = some fl →
        jTruthy fl = true → spreadFields fl = some fs →
        (jGetTruthy fl "name").isSome = true →
        jGet fl "steps" = some (.arr steps) →
        (∀ s ∈ steps, jTruthy s = true ∧ (spreadFields s).isSome = true) →
        ∃ f', importFlow genId now data = .ok (.single f')) ∧
    (∀ (save : List JVal → JVal → List JVal) (storage : List JVal)
        (genId : Nat → String) (now : ℚ) (data : JVal) (e : String),
        importFlow genId now data = .error e →
        handleImport save (importFlow genId now data) storage = (storage, some e)) := by
  refine ⟨?_, ?_, ?_, ?_, ?_, ?_, ?_⟩
  · intro genId now data hv
    simp [importFlow, hv]
  · intro genId now data w hv hf hfs
    cases hfl : jGetTruthy data "flows" with
    | none => simp [importFlow, hv, hf, hfl]
    | some v => simp [importFlow, hv, hf, hfl, hfs v hfl]
  · intro genId now data w fl hv hf hbad
    have hval : validateAndPrepareFlow genId now 0 fl = .error "Invalid flow data" := by
      rcases hbad with hb | hb
      · simp [validateAndPrepareFlow, hb]
      · cases ht : jTruthy fl with
        | false => simp [validateAndPrepareFlow, ht]
        | true => simp [validateAndPrepareFlow, ht, hb]
    simp [importFlow, hv, hf, hval]
  · intro genId now data w fl fs hv hf hT hfs hns
    have hval : validateAndPrepareFlow genId now 0 fl = .error "Invalid flow structure" := by
      rcases hns with hn | hsteps
      · simp [validateAndPrepareFlow, hT, hfs, hn]
      · cases hn : (jGetTruthy fl "name").isSome with
        | false => simp [validateAndPrepareFlow, hT, hfs, hn]
        | true =>
          cases hsv : jGet fl "steps" with
          | none => simp [validateAndPrepareFlow, hT, hfs, hn, hsv]
          | some sv => simp [validateAndPrepareFlow, hT, hfs, hn, hsv, hsteps sv hsv]
    simp [importFlow, hv, hf, hval]
  · intro genId now data w fl fs steps hv hf hT hfs hn hsv hbad
    have herr := prepareSteps_err genId steps 1 hbad
    have hval : validateAndPrepareFlow genId now 0 fl = .error "Invalid step data" := by
      simp [validateAndPrepareFlow, hT, hfs, hn, hsv, isArr, herr]
    simp [importFlow, hv, hf, hval]
  · intro genId now data w fl fs steps hv hf hT hfs hn hsv hok
    obtain ⟨out, hout⟩ := prepareSteps_ok genId steps 1 hok
    refine ⟨.obj (setField (setField (setField (setField fs
        "id" (.str (genId 0))) "steps" (.arr out)) "createdAt" (.num now))
        "updatedAt" (.num now)), ?_⟩
    simp [importFlow, hv, hf, validateAndPrepareFlow, hT, hfs, hn, hsv, isArr, hout]
  · intro save storage genId now data e herr
    rw [herr]
    rfl

/-- Witness for `C9_import_validation` on one concrete input per
malformation category, a valid single-flow envelope, and the no-mutation
branch. -/
theorem C9_witness :
    importFlow c4GenId 7 c9NoVersion = .error "Invalid file format: missing version" ∧
    importFlow c4GenId 7 c9NoData = .error "Invalid file format: no flow data found" ∧
    importFlow c4GenId 7 c9BadFlow = .error "Invalid flow data" ∧
    importFlow c4GenId 7 c9BadStructure = .error "Invalid flow structure" ∧
    importFlow c4GenId 7 c9BadStep = .error "Invalid step data" ∧
    (∃ f', importFlow c4GenId 7 (exportEnvelope 1 c4Flow) = .ok (.single f')) ∧
    handleImport (fun st _ => st) (importFlow c4GenId 7 c9NoVersion) [] =
      ([], some "Invalid file format: missing version") :=
  ⟨C9_import_validation.1 c4GenId 7 c9NoVersion rfl,
   C9_import_validation.2.1 c4GenId 7 c9NoData (.str "1.0.0") rfl rfl
     (fun v hv => Option.noConfusion hv),
   C9_import_validation.2.2.1 c4GenId 7 c9BadFlow (.str "1.0.0") (.str "nope") rfl rfl
     (Or.inr rfl),
   C9_import_validation.2.2.2.1 c4GenId 7 c9BadStructure (.str "1.0.0")
     (.obj [("name", .str "x")]) [("name", .str "x")] rfl rfl rfl rfl
     (Or.inr (fun sv hsv => Option.noConfusion hsv)),
   C9_import_validation.2.2.2.2.1 c4GenId 7 c9BadStep (.str "1.0.0")
     (.obj [("name", .str "x"), ("steps", .arr [.null])])
     [("name", .str "x"), ("steps", .arr [.null])] [.null] rfl rfl rfl rfl rfl rfl
     ⟨.null, by simp, Or.inl rfl⟩,
   C9_import_validation.2.2.2.2.2.1 c4GenId 7 (exportEnvelope 1 c4Flow) _ _ _
     [stepToJson c4Step] rfl rfl rfl rfl rfl rfl
     (by
       intro s hs
       rw [List.mem_singleton.mp hs]
       exact ⟨rfl, rfl⟩),
   C9_import_validation.2.2.2.2.2.2 (fun st _ => st) [] c4GenId 7 c9NoVersion
     "Invalid file format: missing version" rfl⟩

/-- Helper: preparing the JSON of a recorded step replaces exactly its
`id` field. -/
theorem prepareStep_stepToJson (genId : Nat → String) (c : Nat) (s : RecordedStep) :
    prepareStep genId c (stepToJson s) = .ok (stepToJson { s with id := genId c }) := rfl

/-- Helper: preparing the JSON of a step list replaces each step's `id`
with the fresh ids in order, leaving all other step content unchanged. -/
theorem prepareSteps_stepToJson (genId : Nat → String) :
    ∀ (steps : List RecordedStep) (c : Nat),
      prepareSteps genId c (steps.map stepToJson) =
        .ok ((steps.mapIdx (fun i s => { s with id := genId (c + i) })).map stepToJson)
  | [], _ => rfl
  | s :: rest, c => by
    have ih := prepareSteps_stepToJson genId rest (c + 1)
    have harith : (fun (i : Nat) (s' : RecordedStep) => { s' with id := genId (c + 1 + i) }) =
        (fun (i : Nat) (s' : RecordedStep) => { s' with id := genId (c + (i + 1)) }) := by
      funext i s'
      have hx : c + 1 + i = c + (i + 1) := by omega
      rw [hx]
    simp only [List.map_cons, prepareSteps, prepareStep_stepToJson, ih, List.mapIdx_cons]
    rw [← harith]
    simp

/-- Helper: fresh-id index bookkeeping. -/
theorem mapIdx_genId_comm (genId : Nat → String) (l : List RecordedStep) :
    List.mapIdx (fun i s => { s with id := genId (1 + i) }) l =
    List.mapIdx (fun i s => { s with id := genId (i + 1) }) l := by
  have he : (fun (i : Nat) (s : RecordedStep) =>
        ({ s with id := genId (1 + i) } : RecordedStep)) =
      (fun (i : Nat) (s : RecordedStep) => { s with id := genId (i + 1) }) := by
    funext i s
    rw [Nat.add_comm]
  rw [he]

/-- Helper: validating the JSON of an exported flow succeeds and
produces exactly the claim's predicted flow. -/
theorem validate_flowToJson (genId : Nat → String) (now : ℚ) (f : Flow)
    (h : f.name ≠ "") :
    validateAndPrepareFlow genId now 0 (flowToJson f) =
      .ok (flowToJson (importedFlowSpec genId now f), 1 + f.steps.length) := by
  have hprep := prepareSteps_stepToJson genId f.steps 1
  cases hd : f.description with
  | none =>
    simp [validateAndPrepareFlow, jTruthy, spreadFields, flowToJson, hd, jGetTruthy,
      jGet, jTruthy, h, isArr, hprep, setField, importedFlowSpec]
    rw [mapIdx_genId_comm]
  | some d =>
    simp [validateAndPrepareFlow, jTruthy, spreadFields, flowToJson, hd, jGetTruthy,
      jGet, jTruthy, h, isArr, hprep, setField, importedFlowSpec]
    rw [mapIdx_genId_comm]

/-- Claim C4: importing the versioned envelope produced for a recorded
flow (recorded flows always carry a nonempty name) yields exactly the
flow with identical name and step content in the same order, the flow id
replaced by the first fresh id, each step id by the following fresh ids
in order, and `createdAt`/`updatedAt` stamped with the import time —
`importedFlowSpec` is that round-trip result stated from the claim's
words. -/
theorem C4_export_import_roundtrip :
    ∀ (genId : Nat → String) (now exportedAt : ℚ) (f : Flow),
      f.name ≠ "" →
      importFlow genId now (exportEnvelope exportedAt f) =
        .ok (.single (flowToJson (importedFlowSpec genId now f))) := by
  intro genId now t f h
  have hv : jGetTruthy (exportEnvelope t f) "version" = some (.str "1.0.0") := rfl
  have hf : jGetTruthy (exportEnvelope t f) "flow" = some (flowToJson f) := by
    simp [jGetTruthy, jGet, exportEnvelope, jTruthy, flowToJson]
  simp [importFlow, hv, hf, validate_flowToJson genId now f h]

/-- Witness for `C4_export_import_roundtrip` on a one-step flow. -/
theorem C4_witness :
    importFlow c4GenId 7 (exportEnvelope 1 c4Flow) =
      .ok (.single (flowToJson (importedFlowSpec c4GenId 7 c4Flow))) :=
  C4_export_import_roundtrip c4GenId 7 1 c4Flow (by decide)

end FlowRec
